import Mathlib

/-!
Verification of the role-based authorization guard
(`src/guards/role.guard.ts`, `RoleGuard.canActivate`) of the
Discord_NestJS repository, as a shallow embedding in Lean 4.

The guard reads the required role levels attached to the target handler
(absent or a list of numbers), extracts `id` and `auth_code` from the
authenticated request, consults a Redis cache under the key
`role_${id}_${authCode}`, on a falsy cached value queries the Prisma
`authCode` table for the record with exactly that `id` and `authCode`,
throws `UnauthorizedException("Invalid authentication")` when no record
exists, otherwise writes the record's `roleLevel` to the cache, and
finally throws `UnauthorizedException("Insufficient permissions")` when
`Number(cachedRole) < minRoleLevel` where
`minRoleLevel = Math.min(...rolesLevel)`.

JavaScript value semantics that matter here are embedded explicitly:
`Math.min()` of an empty spread is `Infinity`; `Number(s)` of a string
that does not denote a number is `NaN`; every comparison involving `NaN`
is false; the truthiness test `!cachedRole` treats `null` and the empty
string as falsy and every other string as truthy.
-/

namespace RoleGuard

/-- The numeric values that occur in the guard: integer role levels,
`Infinity` (from `Math.min()` of an empty spread) and `NaN` (from
`Number` applied to a non-numeric string). -/
inductive JsNum where
  | nan
  | posInf
  | int (n : Int)
deriving DecidableEq

/-- JavaScript `<` on the numeric values above: any comparison with
`NaN` is false, and every integer is below `Infinity`. -/
def jsLt : JsNum → JsNum → Bool
  | JsNum.nan, _ => false
  | _, JsNum.nan => false
  | JsNum.int a, JsNum.int b => a < b
  | JsNum.int _, JsNum.posInf => true
  | JsNum.posInf, _ => false

/-- The value of `Math.min(...rolesLevel)`: `Infinity` on the empty
list, otherwise the fold of binary `min` over the elements. -/
def mathMin (xs : List Int) : JsNum :=
  match xs with
  | [] => JsNum.posInf
  | n :: ns => JsNum.int (ns.foldl min n)

/-- Numeric value of a decimal digit character, `none` on any other
character. -/
def digitVal? (c : Char) : Option Nat :=
  if 48 ≤ c.toNat ∧ c.toNat ≤ 57 then some (c.toNat - 48) else none

/-- Left-to-right accumulator parse of a digit string, as JavaScript
reads decimal notation; fails on the first non-digit. -/
def parseNatAux : List Char → Nat → Option Nat
  | [], acc => some acc
  | c :: cs, acc =>
    match digitVal? c with
    | some d => parseNatAux cs (acc * 10 + d)
    | none => none

/-- Parse of a non-empty all-digit character list; `none` on the empty
list or on any non-digit. -/
def parseNat? : List Char → Option Nat
  | [] => none
  | c :: cs => parseNatAux (c :: cs) 0

/-- JavaScript `Number(s)` for a string, restricted to the decimal
integer grammar this program stores in the cache: the empty string is
`0`, an optional leading minus sign followed by decimal digits is that
integer, and every other string is `NaN`. (Fractional, exponent, hex
and whitespace forms never arise from this guard's own writes and are
mapped to `NaN`; theorems about unparsable cached values carry the
`NaN` conversion as an explicit hypothesis.) -/
def stringToNumber (s : String) : JsNum :=
  match s.data with
  | [] => JsNum.int 0
  | c :: rest =>
    if c = '-' then
      match parseNat? rest with
      | some n => JsNum.int (-(n : Int))
      | none => JsNum.nan
    else
      match parseNat? (c :: rest) with
      | some n => JsNum.int ((n : Int))
      | none => JsNum.nan

/-- Big-endian decimal digit characters of `n`, with explicit fuel
(`fuel ≥ n` suffices); the empty list for `n = 0`. -/
def natToDigitCharsAux : Nat → Nat → List Char
  | 0, _ => []
  | _, 0 => []
  | fuel + 1, n => natToDigitCharsAux fuel (n / 10) ++ [Nat.digitChar (n % 10)]

/-- Big-endian decimal digit characters of `n`; empty for `n = 0`. -/
def natToDigitChars (n : Nat) : List Char :=
  natToDigitCharsAux n n

/-- JavaScript string conversion of an integer-valued number, as the
cache write performs on `auth.roleLevel`: decimal notation with a
leading minus sign for negative values. -/
def jsIntToString (i : Int) : String :=
  if i < 0 then String.mk ('-' :: natToDigitChars i.natAbs)
  else if i = 0 then "0"
  else String.mk (natToDigitChars i.natAbs)

/-- The authoritative record: the `authCode` table row, carrying the
role level. Modelled from the spec: the Prisma schema is not under
`src/`; spec section 3 gives AuthorizationRecord the single attribute
`roleLevel` (integer), keyed by (identity, sessionCode). -/
structure AuthRecord where
  roleLevel : Int
deriving DecidableEq

/-- Redis cache contents: string values under string keys, `none` for
an absent key (the client returns `null`). -/
def Cache : Type := String → Option String

/-- Authoritative store contents: `findUnique` by the composite
(identity, sessionCode) pair. -/
def Store : Type := String → String → Option AuthRecord

/-- The guard's outcome: `canActivate` returns `true` (allow) or throws
`UnauthorizedException` with a message. -/
inductive GuardOutcome where
  | allow
  | unauthorizedException (message : String)
deriving DecidableEq

/-- The authentication failure: `UnauthorizedException("Invalid
authentication")`, thrown when no authoritative record matches. -/
def AuthenticationError : GuardOutcome :=
  GuardOutcome.unauthorizedException "Invalid authentication"

/-- The authorization failure: `UnauthorizedException("Insufficient
permissions")`, thrown when the effective role level fails the
comparison against the minimum required level. -/
def AuthorizationError : GuardOutcome :=
  GuardOutcome.unauthorizedException "Insufficient permissions"

/-- Operations the guard issues against the cache. -/
inductive CacheOp where
  | get (key : String)
  | set (key value : String)
deriving DecidableEq

/-- Operations the guard could issue against the authoritative store.
The guard itself only ever issues `findUnique`; `write` exists so that
the read-only frame property is expressible. -/
inductive StoreOp where
  | findUnique (id authCode : String)
  | write (id authCode : String) (rec : AuthRecord)
deriving DecidableEq

/-- Whether a cache operation mutates the cache. -/
def CacheOp.isSet : CacheOp → Bool
  | CacheOp.get _ => false
  | CacheOp.set _ _ => true

/-- Whether a store operation mutates the store. -/
def StoreOp.isWrite : StoreOp → Bool
  | StoreOp.findUnique _ _ => false
  | StoreOp.write _ _ _ => true

/-- Effect of one store operation on the store contents. -/
def applyStoreOp (store : Store) : StoreOp → Store
  | StoreOp.findUnique _ _ => store
  | StoreOp.write i a rec =>
    fun x y => if x = i ∧ y = a then some rec else store x y

/-- Effect of a trace of store operations on the store contents. -/
def applyStoreOps (store : Store) (ops : List StoreOp) : Store :=
  ops.foldl applyStoreOp store

/-- Result of one guard invocation: the decision, the final cache
contents, and the traces of cache and store operations issued. -/
structure GuardResult where
  outcome : GuardOutcome
  cache : Cache
  cacheTrace : List CacheOp
  storeTrace : List StoreOp

/-- The cache key the guard builds: the template literal
`role_${id}_${authCode}`. -/
def cacheKey (id authCode : String) : String :=
  "role_" ++ id ++ "_" ++ authCode

/-- The cache-miss branch: `findUnique` on the `authCode` table with
exactly `{ id, authCode }`; on absence throw `Invalid authentication`;
on presence write the role level through to the cache (its string
representation is what a later read returns) and compare it, as a
number, against the minimum required level. -/
def missBranch (minRoleLevel : JsNum) (key id authCode : String)
    (cache : Cache) (store : Store) : GuardResult :=
  match store id authCode with
  | none =>
    ⟨AuthenticationError, cache, [CacheOp.get key],
      [StoreOp.findUnique id authCode]⟩
  | some auth =>
    let stored := jsIntToString auth.roleLevel
    let cache2 : Cache := fun k => if k = key then some stored else cache k
    if jsLt (JsNum.int auth.roleLevel) minRoleLevel then
      ⟨AuthorizationError, cache2, [CacheOp.get key, CacheOp.set key stored],
        [StoreOp.findUnique id authCode]⟩
    else
      ⟨GuardOutcome.allow, cache2, [CacheOp.get key, CacheOp.set key stored],
        [StoreOp.findUnique id authCode]⟩

/-- Shallow embedding of `RoleGuard.canActivate`. `rolesLevel` is what
`reflector.get(Roles, handler)` returns (`none` when the decorator is
absent); `id` and `authCode` come from the decoded token on the
request; the cache write inside `redisService.set` stores the string
representation of the numeric role level (modelled from the spec:
`src/cache/redis.service.ts` is not under `src/`; spec sections 3 and 6
give the cache `set(key, value)` with the value read back as a
string). -/
def canActivate (rolesLevel : Option (List Int)) (id authCode : String)
    (cache : Cache) (store : Store) : GuardResult :=
  match rolesLevel with
  | none => ⟨GuardOutcome.allow, cache, [], []⟩
  | some levels =>
    let minRoleLevel := mathMin levels
    let key := cacheKey id authCode
    match cache key with
    | none => missBranch minRoleLevel key id authCode cache store
    | some s =>
      if s = "" then missBranch minRoleLevel key id authCode cache store
      else if jsLt (stringToNumber s) minRoleLevel then
        ⟨AuthorizationError, cache, [CacheOp.get key], []⟩
      else
        ⟨GuardOutcome.allow, cache, [CacheOp.get key], []⟩

/-- The everywhere-empty cache. -/
def emptyCache : Cache := fun _ => none

/-- The empty authoritative store. -/
def emptyStore : Store := fun _ _ => none

/-- A store holding exactly one record under one (identity,
sessionCode) pair. -/
def singleStore (id authCode : String) (rec : AuthRecord) : Store :=
  fun x y => if x = id ∧ y = authCode then some rec else none

/-- A cache holding exactly one string value under one key. -/
def singleCache (key value : String) : Cache :=
  fun k => if k = key then some value else none

/-- One invocation of the guard, presented as a relation between the
request (required levels, identity, session code), the initial cache
and store contents, and the produced result, with one constructor per
control path of `canActivate`: decorator absent; cache hit below /
at-or-above the minimum; cache miss (absent or empty cached value) with
no, a denying, or an allowing authoritative record. -/
inductive GuardStep :
    Option (List Int) → String → String → Cache → Store → GuardResult → Prop where
  | noRoles (id authCode : String) (cache : Cache) (store : Store) :
      GuardStep none id authCode cache store
        ⟨GuardOutcome.allow, cache, [], []⟩
  | hitAllow (levels : List Int) (id authCode : String) (cache : Cache)
      (store : Store) (s : String) :
      cache (cacheKey id authCode) = some s → s ≠ "" →
      jsLt (stringToNumber s) (mathMin levels) = false →
      GuardStep (some levels) id authCode cache store
        ⟨GuardOutcome.allow, cache, [CacheOp.get (cacheKey id authCode)], []⟩
  | hitDeny (levels : List Int) (id authCode : String) (cache : Cache)
      (store : Store) (s : String) :
      cache (cacheKey id authCode) = some s → s ≠ "" →
      jsLt (stringToNumber s) (mathMin levels) = true →
      GuardStep (some levels) id authCode cache store
        ⟨AuthorizationError, cache, [CacheOp.get (cacheKey id authCode)], []⟩
  | missNoRecord (levels : List Int) (id authCode : String) (cache : Cache)
      (store : Store) :
      (cache (cacheKey id authCode) = none ∨ cache (cacheKey id authCode) = some "") →
      store id authCode = none →
      GuardStep (some levels) id authCode cache store
        ⟨AuthenticationError, cache, [CacheOp.get (cacheKey id authCode)],
          [StoreOp.findUnique id authCode]⟩
  | missFoundDeny (levels : List Int) (id authCode : String) (cache : Cache)
      (store : Store) (auth : AuthRecord) :
      (cache (cacheKey id authCode) = none ∨ cache (cacheKey id authCode) = some "") →
      store id authCode = some auth →
      jsLt (JsNum.int auth.roleLevel) (mathMin levels) = true →
      GuardStep (some levels) id authCode cache store
        ⟨AuthorizationError,
          (fun k => if k = cacheKey id authCode
            then some (jsIntToString auth.roleLevel) else cache k),
          [CacheOp.get (cacheKey id authCode),
            CacheOp.set (cacheKey id authCode) (jsIntToString auth.roleLevel)],
          [StoreOp.findUnique id authCode]⟩
  | missFoundAllow (levels : List Int) (id authCode : String) (cache : Cache)
      (store : Store) (auth : AuthRecord) :
      (cache (cacheKey id authCode) = none ∨ cache (cacheKey id authCode) = some "") →
      store id authCode = some auth →
      jsLt (JsNum.int auth.roleLevel) (mathMin levels) = false →
      GuardStep (some levels) id authCode cache store
        ⟨GuardOutcome.allow,
          (fun k => if k = cacheKey id authCode
            then some (jsIntToString auth.roleLevel) else cache k),
          [CacheOp.get (cacheKey id authCode),
            CacheOp.set (cacheKey id authCode) (jsIntToString auth.roleLevel)],
          [StoreOp.findUnique id authCode]⟩

end RoleGuard

namespace RoleGuard

theorem parseNatAux_append (l1 l2 : List Char) (acc : Nat) :
    parseNatAux (l1 ++ l2) acc =
      (parseNatAux l1 acc).bind (fun a => parseNatAux l2 a) := by
  induction l1 generalizing acc with
  | nil => simp [parseNatAux]
  | cons c cs ih =>
    simp only [List.cons_append, parseNatAux]
    cases digitVal? c with
    | none => simp
    | some d => simp [ih]

theorem digitVal?_digitChar (d : Nat) (h : d < 10) :
    digitVal? (Nat.digitChar d) = some d := by
  interval_cases d <;> decide

theorem parseNatAux_natToDigitCharsAux (fuel : Nat) :
    ∀ n acc, n ≤ fuel →
      parseNatAux (natToDigitCharsAux fuel n) acc =
        some (acc * 10 ^ (natToDigitCharsAux fuel n).length + n) := by
  induction fuel with
  | zero =>
    intro n acc h
    have hn : n = 0 := Nat.le_zero.mp h
    subst hn
    simp [natToDigitCharsAux, parseNatAux]
  | succ fuel ih =>
    intro n acc h
    match n with
    | 0 => simp [natToDigitCharsAux, parseNatAux]
    | m + 1 =>
      have hdiv : (m + 1) / 10 ≤ fuel := by omega
      have hmod : (m + 1) % 10 < 10 := Nat.mod_lt _ (by omega)
      simp only [natToDigitCharsAux, parseNatAux_append, ih _ _ hdiv,
        Option.some_bind, parseNatAux, digitVal?_digitChar _ hmod,
        List.length_append, List.length_cons, List.length_nil, Nat.zero_add]
      have hsplit : (m + 1) / 10 * 10 + (m + 1) % 10 = m + 1 := by omega
      set k := (natToDigitCharsAux fuel ((m + 1) / 10)).length with hk
      congr 1
      calc (acc * 10 ^ k + (m + 1) / 10) * 10 + (m + 1) % 10
          = acc * (10 ^ k * 10) + ((m + 1) / 10 * 10 + (m + 1) % 10) := by ring
        _ = acc * 10 ^ (k + 1) + (m + 1) := by rw [hsplit, pow_succ]

theorem natToDigitCharsAux_ne_nil (fuel n : Nat) (h0 : 0 < n) (h : n ≤ fuel) :
    natToDigitCharsAux fuel n ≠ [] := by
  cases fuel with
  | zero => exfalso; omega
  | succ f =>
    cases n with
    | zero => exfalso; omega
    | succ m => simp [natToDigitCharsAux]

theorem natToDigitCharsAux_mem (fuel : Nat) :
    ∀ n c, c ∈ natToDigitCharsAux fuel n → ∃ d, d < 10 ∧ c = Nat.digitChar d := by
  induction fuel with
  | zero => intro n c hc; simp [natToDigitCharsAux] at hc
  | succ fuel ih =>
    intro n c hc
    match n with
    | 0 => simp [natToDigitCharsAux] at hc
    | m + 1 =>
      simp only [natToDigitCharsAux, List.mem_append, List.mem_singleton] at hc
      rcases hc with hc | hc
      · exact ih _ _ hc
      · exact ⟨(m + 1) % 10, Nat.mod_lt _ (by omega), hc⟩

theorem parseNat?_natToDigitChars (n : Nat) (h : 0 < n) :
    parseNat? (natToDigitChars n) = some n := by
  have hne : natToDigitChars n ≠ [] :=
    natToDigitCharsAux_ne_nil n n h le_rfl
  have hparse := parseNatAux_natToDigitCharsAux n n 0 le_rfl
  cases hl : natToDigitChars n with
  | nil => exact absurd hl hne
  | cons c cs =>
    have hstep : parseNat? (c :: cs) = parseNatAux (c :: cs) 0 := rfl
    rw [hstep, ← hl]
    show parseNatAux (natToDigitCharsAux n n) 0 = some n
    rw [hparse]
    simp

end RoleGuard

namespace RoleGuard

theorem digitChar_ne_minus (d : Nat) (h : d < 10) : Nat.digitChar d ≠ '-' := by
  interval_cases d <;> decide

theorem jsIntToString_ne_empty (i : Int) : jsIntToString i ≠ "" := by
  intro hcontra
  have hdata := congrArg String.data hcontra
  rw [jsIntToString] at hdata
  split at hdata
  · simp at hdata
  · split at hdata
    · simp at hdata
    · rename_i hneg hzero
      have hpos : 0 < i.natAbs := by omega
      have hne := natToDigitCharsAux_ne_nil i.natAbs i.natAbs hpos le_rfl
      exact hne (by simpa [natToDigitChars] using hdata)

theorem stringToNumber_jsIntToString (i : Int) :
    stringToNumber (jsIntToString i) = JsNum.int i := by
  rcases lt_trichotomy i 0 with hneg | hzero | hpos
  · have hdata : (jsIntToString i).data = '-' :: natToDigitChars i.natAbs := by
      simp [jsIntToString, hneg]
    have hpos : 0 < i.natAbs := by omega
    rw [stringToNumber, hdata]
    simp only [if_pos rfl, parseNat?_natToDigitChars i.natAbs hpos]
    have habs : -((i.natAbs : Int)) = i := by omega
    rw [habs]
    simp
  · subst hzero
    decide
  · have hne0 : i ≠ 0 := by omega
    have hdata : (jsIntToString i).data = natToDigitChars i.natAbs := by
      simp [jsIntToString, not_lt.mpr (le_of_lt hpos), hne0]
    have hposAbs : 0 < i.natAbs := by omega
    have hne := natToDigitCharsAux_ne_nil i.natAbs i.natAbs hposAbs le_rfl
    rw [stringToNumber, hdata]
    cases hl : natToDigitChars i.natAbs with
    | nil => exact absurd hl hne
    | cons c cs =>
      have hcmem : c ∈ natToDigitChars i.natAbs := by rw [hl]; simp
      obtain ⟨d, hd10, hcd⟩ := natToDigitCharsAux_mem i.natAbs i.natAbs c hcmem
      have hcne : c ≠ '-' := hcd ▸ digitChar_ne_minus d hd10
      have hparse : parseNat? (c :: cs) = some i.natAbs := by
        rw [← hl]; exact parseNat?_natToDigitChars i.natAbs hposAbs
      simp only [if_neg hcne, hparse]
      congr 1
      omega

end RoleGuard

namespace RoleGuard

theorem underscore_split (l1 : List Char) :
    ∀ (l2 r1 r2 : List Char), '_' ∉ l1 → '_' ∉ l2 →
      l1 ++ '_' :: r1 = l2 ++ '_' :: r2 → l1 = l2 ∧ r1 = r2 := by
  induction l1 with
  | nil =>
    intro l2 r1 r2 h1 h2 heq
    cases l2 with
    | nil => simpa using heq
    | cons d ds =>
      exfalso
      rw [List.nil_append, List.cons_append] at heq
      have hd : d = '_' := (List.cons.injEq _ _ _ _ ▸ heq).1.symm
      exact h2 (hd ▸ List.mem_cons_self d ds)
  | cons c cs ih =>
    intro l2 r1 r2 h1 h2 heq
    cases l2 with
    | nil =>
      exfalso
      rw [List.cons_append, List.nil_append] at heq
      have hc : c = '_' := (List.cons.injEq _ _ _ _ ▸ heq).1
      exact h1 (hc ▸ List.mem_cons_self c cs)
    | cons d ds =>
      rw [List.cons_append, List.cons_append] at heq
      have hcd := (List.cons.injEq _ _ _ _ ▸ heq).1
      have htail := (List.cons.injEq _ _ _ _ ▸ heq).2
      have h1' : '_' ∉ cs := fun hmem => h1 (List.mem_cons_of_mem c hmem)
      have h2' : '_' ∉ ds := fun hmem => h2 (List.mem_cons_of_mem d hmem)
      obtain ⟨hl, hr⟩ := ih ds r1 r2 h1' h2' htail
      exact ⟨by rw [hcd, hl], hr⟩

theorem cacheKey_inj (id1 code1 id2 code2 : String)
    (h1 : '_' ∉ id1.data) (h2 : '_' ∉ id2.data)
    (heq : cacheKey id1 code1 = cacheKey id2 code2) :
    id1 = id2 ∧ code1 = code2 := by
  have hdata := congrArg String.data heq
  simp only [cacheKey, String.data_append] at hdata
  simp only [List.append_assoc, List.cons_append, List.nil_append,
    List.cons.injEq, true_and] at hdata
  have hmid : id1.data ++ '_' :: code1.data = id2.data ++ '_' :: code2.data := by
    simpa using hdata
  obtain ⟨hid, hcode⟩ := underscore_split id1.data id2.data code1.data code2.data h1 h2 hmid
  exact ⟨String.ext hid, String.ext hcode⟩

end RoleGuard

namespace RoleGuard

theorem guardStep_canActivate (rolesLevel : Option (List Int))
    (id authCode : String) (cache : Cache) (store : Store) :
    GuardStep rolesLevel id authCode cache store
      (canActivate rolesLevel id authCode cache store) := by
  cases rolesLevel with
  | none => exact GuardStep.noRoles id authCode cache store
  | some levels =>
    cases hc : cache (cacheKey id authCode) with
    | none =>
      cases hs : store id authCode with
      | none =>
        simp only [canActivate, missBranch, hc, hs]
        exact GuardStep.missNoRecord levels id authCode cache store (Or.inl hc) hs
      | some auth =>
        cases hlt : jsLt (JsNum.int auth.roleLevel) (mathMin levels) with
        | true =>
          simp only [canActivate, missBranch, hc, hs, hlt, if_pos]
          exact GuardStep.missFoundDeny levels id authCode cache store auth
            (Or.inl hc) hs hlt
        | false =>
          simp only [canActivate, missBranch, hc, hs, hlt, if_neg]
          exact GuardStep.missFoundAllow levels id authCode cache store auth
            (Or.inl hc) hs hlt
    | some s =>
      by_cases hse : s = ""
      · subst hse
        cases hs : store id authCode with
        | none =>
          simp only [canActivate, missBranch, hc, hs, if_pos]
          exact GuardStep.missNoRecord levels id authCode cache store (Or.inr hc) hs
        | some auth =>
          cases hlt : jsLt (JsNum.int auth.roleLevel) (mathMin levels) with
          | true =>
            simp only [canActivate, missBranch, hc, hs, hlt, if_pos]
            exact GuardStep.missFoundDeny levels id authCode cache store auth
              (Or.inr hc) hs hlt
          | false =>
            simp only [canActivate, missBranch, hc, hs, hlt, if_neg]
            exact GuardStep.missFoundAllow levels id authCode cache store auth
              (Or.inr hc) hs hlt
      · cases hlt : jsLt (stringToNumber s) (mathMin levels) with
        | true =>
          simp only [canActivate, hc, if_neg hse, hlt, if_pos]
          exact GuardStep.hitDeny levels id authCode cache store s hc hse hlt
        | false =>
          simp only [canActivate, hc, if_neg hse, hlt, if_neg]
          exact GuardStep.hitAllow levels id authCode cache store s hc hse hlt

end RoleGuard

namespace RoleGuard

/-- Claim C10: the guard is deterministic. Any two invocations related
by `GuardStep` to the same required levels, identity, session code,
initial cache contents and initial store contents produce equal
results: the same decision, the same final cache contents, and the
same operation traces. -/
theorem canActivate_deterministic (rolesLevel : Option (List Int))
    (id authCode : String) (cache : Cache) (store : Store)
    (res1 res2 : GuardResult)
    (h1 : GuardStep rolesLevel id authCode cache store res1)
    (h2 : GuardStep rolesLevel id authCode cache store res2) :
    res1 = res2 := by
  cases h1 <;> cases h2 <;>
    simp_all [AuthenticationError, AuthorizationError]

/-- Witness for C10 at a concrete input: the two runs of the guard on
the handler with required levels `[1]`, identity `u`, session code `a`,
the empty cache and a store holding role level `2` produce equal
results. -/
theorem canActivate_deterministic_witness :
    canActivate (some [1]) "u" "a" emptyCache (singleStore "u" "a" ⟨2⟩)
      = canActivate (some [1]) "u" "a" emptyCache (singleStore "u" "a" ⟨2⟩) :=
  canActivate_deterministic (some [1]) "u" "a" emptyCache
    (singleStore "u" "a" ⟨2⟩) _ _
    (guardStep_canActivate (some [1]) "u" "a" emptyCache (singleStore "u" "a" ⟨2⟩))
    (guardStep_canActivate (some [1]) "u" "a" emptyCache (singleStore "u" "a" ⟨2⟩))

end RoleGuard

namespace RoleGuard

theorem foldl_min_mem (ns : List Int) : ∀ n : Int, ns.foldl min n ∈ n :: ns := by
  induction ns with
  | nil => intro n; simp
  | cons m ms ih =>
    intro n
    have h := ih (min n m)
    rcases List.mem_cons.mp h with hhead | htail
    · rw [List.foldl_cons, hhead]
      rcases min_choice n m with hn | hm
      · rw [hn]; exact List.mem_cons_self n (m :: ms)
      · rw [hm]; exact List.mem_cons_of_mem n (List.mem_cons_self m ms)
    · exact List.mem_cons_of_mem n (List.mem_cons_of_mem m htail)

theorem foldl_min_le (ns : List Int) :
    ∀ n x : Int, x ∈ n :: ns → ns.foldl min n ≤ x := by
  induction ns with
  | nil =>
    intro n x hx
    simp only [List.foldl_nil]
    simp only [List.mem_singleton] at hx
    exact le_of_eq hx.symm
  | cons m ms ih =>
    intro n x hx
    rw [List.foldl_cons]
    have hseed : ms.foldl min (min n m) ≤ min n m :=
      ih (min n m) (min n m) (List.mem_cons_self _ _)
    rcases List.mem_cons.mp hx with hxn | hx2
    · rw [hxn]; exact le_trans hseed (min_le_left n m)
    · rcases List.mem_cons.mp hx2 with hxm | hxs
      · rw [hxm]; exact le_trans hseed (min_le_right n m)
      · exact ih (min n m) x (List.mem_cons_of_mem _ hxs)

/-- Claim C7: for a non-empty required-levels collection `n :: ns`, the
value the guard compares against is `Math.min` of the collection, which
is exactly its numeric minimum — an element of the collection that is
at most every element; and on the collection `[3, 1, 5]` the effective
minimum is `1`. -/
theorem mathMin_is_numeric_min (n : Int) (ns : List Int) :
    (∃ m : Int, mathMin (n :: ns) = JsNum.int m ∧ m ∈ n :: ns ∧
      ∀ x ∈ n :: ns, m ≤ x)
    ∧ mathMin [3, 1, 5] = JsNum.int 1 :=
  ⟨⟨ns.foldl min n, rfl, foldl_min_mem ns n, fun x hx => foldl_min_le ns n x hx⟩,
    by decide⟩

/-- Claim C2 (amended): when the required-levels metadata is absent
(the decorator is not on the handler), the guard allows unconditionally
for every identity, session code, cache state and store state, leaves
the cache unchanged, and issues no cache and no store operations. -/
theorem canActivate_no_metadata (id authCode : String) (cache : Cache)
    (store : Store) :
    canActivate none id authCode cache store
      = ⟨GuardOutcome.allow, cache, [], []⟩ :=
  rfl

/-- Counterexample to claim C2 as stated: a present-but-empty
required-levels collection does not allow unconditionally and does
consult cache and store. On the empty collection with an empty cache
and an empty store the guard fails with the authentication error after
issuing a cache read and a store lookup. -/
theorem canActivate_empty_levels_not_allow :
    (canActivate (some []) "u" "a" emptyCache emptyStore).outcome
        = AuthenticationError
    ∧ (canActivate (some []) "u" "a" emptyCache emptyStore).storeTrace
        = [StoreOp.findUnique "u" "a"]
    ∧ (canActivate (some []) "u" "a" emptyCache emptyStore).cacheTrace
        = [CacheOp.get (cacheKey "u" "a")]
    ∧ GuardOutcome.allow ≠ AuthenticationError := by
  refine ⟨rfl, rfl, rfl, ?_⟩
  decide

/-- Claim C8: the guard never mutates the authoritative store. Every
invocation issues only read operations against the store, so replaying
its store trace over any store contents leaves them unchanged. -/
theorem canActivate_store_readonly (rolesLevel : Option (List Int))
    (id authCode : String) (cache : Cache) (store : Store) :
    applyStoreOps store (canActivate rolesLevel id authCode cache store).storeTrace
        = store
    ∧ ∀ op ∈ (canActivate rolesLevel id authCode cache store).storeTrace,
        op.isWrite = false := by
  have h := guardStep_canActivate rolesLevel id authCode cache store
  generalize canActivate rolesLevel id authCode cache store = res at h ⊢
  cases h <;> simp [applyStoreOps, applyStoreOp, StoreOp.isWrite]

/-- Claim C9: an invocation that fails with the authentication error
(no authoritative record for the pair) leaves the cache contents
unchanged and issues no cache write. -/
theorem canActivate_authError_cache_unchanged (rolesLevel : Option (List Int))
    (id authCode : String) (cache : Cache) (store : Store)
    (h : (canActivate rolesLevel id authCode cache store).outcome
      = AuthenticationError) :
    (canActivate rolesLevel id authCode cache store).cache = cache
    ∧ ∀ op ∈ (canActivate rolesLevel id authCode cache store).cacheTrace,
        op.isSet = false := by
  have hstep := guardStep_canActivate rolesLevel id authCode cache store
  generalize canActivate rolesLevel id authCode cache store = res at hstep h ⊢
  cases hstep <;>
    simp_all [AuthenticationError, AuthorizationError, CacheOp.isSet]

/-- Witness for C9 at a concrete input: required level `[1]`, empty
cache and empty store produce the authentication error, and the
invocation leaves the cache unchanged with no cache write issued. -/
theorem canActivate_authError_cache_unchanged_witness :
    (canActivate (some [1]) "u" "a" emptyCache emptyStore).cache = emptyCache
    ∧ ∀ op ∈ (canActivate (some [1]) "u" "a" emptyCache emptyStore).cacheTrace,
        op.isSet = false :=
  canActivate_authError_cache_unchanged (some [1]) "u" "a" emptyCache emptyStore
    rfl

end RoleGuard

namespace RoleGuard

/-- Claim C4: with a non-empty required-levels collection, when the
cache lookup under the request's key misses and the authoritative
store holds no record for exactly the pair (identity, sessionCode),
the guard fails with the authentication error. The cache is
universally quantified subject only to the miss at the request's own
key, so entries produced from any other identity and session-code
composition may be present. -/
theorem canActivate_no_record_authError (levels : List Int)
    (hne : levels ≠ []) (id authCode : String) (cache : Cache) (store : Store)
    (hmiss : cache (cacheKey id authCode) = none)
    (hnone : store id authCode = none) :
    (canActivate (some levels) id authCode cache store).outcome
      = AuthenticationError := by
  simp [canActivate, missBranch, hmiss, hnone]

/-- Witness for C4 at a concrete input: the cache holds a stale entry
under the key of the different composition (identity `v`, session code
`b`), the lookup for (identity `u`, session code `a`) misses, the
store is empty, and the guard fails with the authentication error. -/
theorem canActivate_no_record_authError_witness :
    ([1] : List Int) ≠ []
    ∧ singleCache (cacheKey "v" "b") "1" (cacheKey "u" "a") = none
    ∧ (canActivate (some [1]) "u" "a" (singleCache (cacheKey "v" "b") "1")
        emptyStore).outcome = AuthenticationError :=
  ⟨by decide, by decide,
    canActivate_no_record_authError [1] (by decide) "u" "a"
      (singleCache (cacheKey "v" "b") "1") emptyStore (by decide) rfl⟩

/-- Counterexample to claim C3 as stated: an unparsable cached value is
not treated as a cache miss. With the string `abc` cached under the
request's key, an empty store and required level `1`, falling through
to the authoritative store would find no record and fail with the
authentication error; instead the guard issues no store operation and
returns allow, because `Number of the string abc` is `NaN` and the comparison
`NaN < 1` is false. -/
theorem canActivate_unparsable_not_miss :
    (canActivate (some [1]) "u" "a" (singleCache (cacheKey "u" "a") "abc")
        emptyStore).outcome = GuardOutcome.allow
    ∧ (canActivate (some [1]) "u" "a" (singleCache (cacheKey "u" "a") "abc")
        emptyStore).storeTrace = [] := by
  exact ⟨rfl, rfl⟩

/-- Claim C3 (amended): a truthy cached value whose numeric conversion
is `NaN` is not treated as a miss and does not crash the guard;
it is used as the effective value, and since every comparison with
`NaN` is false the guard returns allow regardless of the required
levels, without consulting the authoritative store and without
modifying the cache. -/
theorem canActivate_unparsable_allows (levels : List Int)
    (id authCode : String) (cache : Cache) (store : Store) (s : String)
    (hhit : cache (cacheKey id authCode) = some s) (hs : s ≠ "")
    (hnan : stringToNumber s = JsNum.nan) :
    (canActivate (some levels) id authCode cache store).outcome
        = GuardOutcome.allow
    ∧ (canActivate (some levels) id authCode cache store).storeTrace = []
    ∧ (canActivate (some levels) id authCode cache store).cache = cache := by
  simp [canActivate, hhit, hs, hnan, jsLt]

/-- Witness for C3 (amended) at a concrete input: the cached value
`abc` under the request's key converts to `NaN`, and the guard allows
without touching the store or the cache contents. -/
theorem canActivate_unparsable_allows_witness :
    singleCache (cacheKey "u" "a") "abc" (cacheKey "u" "a") = some "abc"
    ∧ ("abc" : String) ≠ ""
    ∧ stringToNumber "abc" = JsNum.nan
    ∧ ((canActivate (some [2]) "u" "a" (singleCache (cacheKey "u" "a") "abc")
          emptyStore).outcome = GuardOutcome.allow
        ∧ (canActivate (some [2]) "u" "a" (singleCache (cacheKey "u" "a") "abc")
            emptyStore).storeTrace = []
        ∧ (canActivate (some [2]) "u" "a" (singleCache (cacheKey "u" "a") "abc")
            emptyStore).cache = singleCache (cacheKey "u" "a") "abc") :=
  ⟨by decide, by decide, by decide,
    canActivate_unparsable_allows [2] "u" "a"
      (singleCache (cacheKey "u" "a") "abc") emptyStore "abc"
      (by decide) (by decide) (by decide)⟩

end RoleGuard

namespace RoleGuard

/-- Counterexample to claim C1 as stated: with an authoritative role
level of `5` and a minimum required level of `1`, the guard returns
allow rather than failing with the authorization error, because the
code denies when the effective level is strictly less — not strictly
greater — than the minimum. -/
theorem canActivate_roleLevel5_min1_allows :
    (canActivate (some [1]) "u" "a" emptyCache (singleStore "u" "a" ⟨5⟩)).outcome
        = GuardOutcome.allow
    ∧ GuardOutcome.allow ≠ AuthorizationError := by
  exact ⟨rfl, by decide⟩

/-- Claim C1 (amended): for a non-empty required-levels collection with
numeric minimum `m` and an effective role level obtained either from a
truthy cached integer string or from the authoritative record on a
miss, the guard fails with the authorization error if and only if the
effective level is strictly less (numerically) than `m`; in particular
both an authoritative role level of `2` and one of `5` are allowed
against a minimum required level of `1` (equal levels also allow). -/
theorem canActivate_denies_iff_below_min (levels : List Int) (m : Int)
    (id authCode : String) (store : Store)
    (hmin : mathMin levels = JsNum.int m) :
    (∀ (cache : Cache) (s : String) (e : Int),
        cache (cacheKey id authCode) = some s → s ≠ "" →
        stringToNumber s = JsNum.int e →
        ((canActivate (some levels) id authCode cache store).outcome
            = AuthorizationError ↔ e < m))
    ∧ (∀ (cache : Cache) (rec : AuthRecord),
        cache (cacheKey id authCode) = none → store id authCode = some rec →
        ((canActivate (some levels) id authCode cache store).outcome
            = AuthorizationError ↔ rec.roleLevel < m))
    ∧ (canActivate (some [1]) "u" "a" emptyCache (singleStore "u" "a" ⟨2⟩)).outcome
        = GuardOutcome.allow
    ∧ (canActivate (some [1]) "u" "a" emptyCache (singleStore "u" "a" ⟨5⟩)).outcome
        = GuardOutcome.allow := by
  refine ⟨?_, ?_, rfl, rfl⟩
  · intro cache s e hhit hs he
    by_cases hlt : e < m
    · simp [canActivate, hhit, hs, he, hmin, jsLt, hlt]
    · simp [canActivate, hhit, hs, he, hmin, jsLt, hlt, AuthorizationError]
  · intro cache rec hmiss hrec
    by_cases hlt : rec.roleLevel < m
    · simp [canActivate, missBranch, hmiss, hrec, hmin, jsLt, hlt]
    · simp [canActivate, missBranch, hmiss, hrec, hmin, jsLt, hlt,
        AuthorizationError]

/-- Witness for C1 (amended) at a concrete input: the required levels
`[3, 1, 5]` have numeric minimum `1`, and the amended equivalence holds
for identity `u`, session code `a` and a store holding role level `0`
under that pair. -/
theorem canActivate_denies_iff_below_min_witness :
    mathMin [3, 1, 5] = JsNum.int 1
    ∧ ((∀ (cache : Cache) (s : String) (e : Int),
        cache (cacheKey "u" "a") = some s → s ≠ "" →
        stringToNumber s = JsNum.int e →
        ((canActivate (some [3, 1, 5]) "u" "a" cache
            (singleStore "u" "a" ⟨0⟩)).outcome = AuthorizationError ↔ e < 1))
      ∧ (∀ (cache : Cache) (rec : AuthRecord),
        cache (cacheKey "u" "a") = none →
        singleStore "u" "a" ⟨0⟩ "u" "a" = some rec →
        ((canActivate (some [3, 1, 5]) "u" "a" cache
            (singleStore "u" "a" ⟨0⟩)).outcome = AuthorizationError ↔
          rec.roleLevel < 1))
      ∧ (canActivate (some [1]) "u" "a" emptyCache
          (singleStore "u" "a" ⟨2⟩)).outcome = GuardOutcome.allow
      ∧ (canActivate (some [1]) "u" "a" emptyCache
          (singleStore "u" "a" ⟨5⟩)).outcome = GuardOutcome.allow) :=
  ⟨by decide,
    canActivate_denies_iff_below_min [3, 1, 5] 1 "u" "a"
      (singleStore "u" "a" ⟨0⟩) (by decide)⟩

/-- Counterexample to claim C5 as stated: the cache-key composition is
not collision-resistant. The distinct pairs (identity `a`, session code
`b_c`) and (identity `a_b`, session code `c`) build the same cache key
`role_a_b_c`. -/
theorem cacheKey_collision :
    cacheKey "a" "b_c" = cacheKey "a_b" "c"
    ∧ ¬(("a" : String) = "a_b" ∧ ("b_c" : String) = "c") := by
  decide

/-- Claim C5 (amended): the cache-key construction is deterministic —
equal pairs always build the same key — and it is collision-free on
every two pairs whose identity components contain no underscore: such
pairs that differ in at least one component build distinct keys. -/
theorem cacheKey_deterministic_and_inj (id1 code1 id2 code2 : String)
    (h1 : '_' ∉ id1.data) (h2 : '_' ∉ id2.data) :
    (id1 = id2 → code1 = code2 → cacheKey id1 code1 = cacheKey id2 code2)
    ∧ (cacheKey id1 code1 = cacheKey id2 code2 → id1 = id2 ∧ code1 = code2) := by
  constructor
  · intro hid hcode
    rw [hid, hcode]
  · intro heq
    exact cacheKey_inj id1 code1 id2 code2 h1 h2 heq

/-- Witness for C5 (amended) at concrete underscore-free inputs: for
the pairs (`u`, `a`) and (`u`, `a`) both directions of the amended
statement hold. -/
theorem cacheKey_deterministic_and_inj_witness :
    '_' ∉ ("u" : String).data
    ∧ '_' ∉ ("u" : String).data
    ∧ ((("u" : String) = "u" → ("a" : String) = "a" →
          cacheKey "u" "a" = cacheKey "u" "a")
      ∧ (cacheKey "u" "a" = cacheKey "u" "a" →
          ("u" : String) = "u" ∧ ("a" : String) = "a")) :=
  ⟨by decide, by decide,
    cacheKey_deterministic_and_inj "u" "a" "u" "a" (by decide) (by decide)⟩

/-- Claim C6: after a first call that misses the cache and finds an
authoritative record (which populates the cache), a second call with
the same identity, session code and required levels — over any store
contents whatsoever, the record's validity not being re-checked —
returns the same decision, issues no store operation, and leaves the
cache contents as the first call left them. -/
theorem canActivate_second_call_cached (levels : List Int) (hne : levels ≠ [])
    (id authCode : String) (cache : Cache) (store store2 : Store)
    (rec : AuthRecord)
    (hmiss : cache (cacheKey id authCode) = none)
    (hrec : store id authCode = some rec) :
    (canActivate (some levels) id authCode
        (canActivate (some levels) id authCode cache store).cache store2).outcome
      = (canActivate (some levels) id authCode cache store).outcome
    ∧ (canActivate (some levels) id authCode
        (canActivate (some levels) id authCode cache store).cache store2).storeTrace
      = []
    ∧ (canActivate (some levels) id authCode
        (canActivate (some levels) id authCode cache store).cache store2).cache
      = (canActivate (some levels) id authCode cache store).cache := by
  cases hlt : jsLt (JsNum.int rec.roleLevel) (mathMin levels) <;>
    simp [canActivate, missBranch, hmiss, hrec, hlt,
      stringToNumber_jsIntToString, jsIntToString_ne_empty]

/-- Witness for C6 at a concrete input: required levels `[1]`, identity
`u`, session code `a`, an empty cache, a first-call store holding role
level `2` under the pair, and an empty store for the second call. -/
theorem canActivate_second_call_cached_witness :
    ([1] : List Int) ≠ []
    ∧ emptyCache (cacheKey "u" "a") = none
    ∧ singleStore "u" "a" ⟨2⟩ "u" "a" = some ⟨2⟩
    ∧ ((canActivate (some [1]) "u" "a"
          (canActivate (some [1]) "u" "a" emptyCache
            (singleStore "u" "a" ⟨2⟩)).cache emptyStore).outcome
        = (canActivate (some [1]) "u" "a" emptyCache
            (singleStore "u" "a" ⟨2⟩)).outcome
      ∧ (canActivate (some [1]) "u" "a"
          (canActivate (some [1]) "u" "a" emptyCache
            (singleStore "u" "a" ⟨2⟩)).cache emptyStore).storeTrace = []
      ∧ (canActivate (some [1]) "u" "a"
          (canActivate (some [1]) "u" "a" emptyCache
            (singleStore "u" "a" ⟨2⟩)).cache emptyStore).cache
        = (canActivate (some [1]) "u" "a" emptyCache
            (singleStore "u" "a" ⟨2⟩)).cache) :=
  ⟨by decide, rfl, by decide,
    canActivate_second_call_cached [1] (by decide) "u" "a" emptyCache
      (singleStore "u" "a" ⟨2⟩) emptyStore ⟨2⟩ rfl (by decide)⟩

end RoleGuard
